import Mathlib

/-!
Verification of the specification of the amazon-ecs-agent repository
(task/container state-reconciliation engine plus the docker client
factory and the generated ECS API model).

The repository sources available are
`agent/dockerclient/clientfactory/dockerclientfactory.go` and
`agent/ecs_client/model/ecs/api.go`; these are embedded directly.
The reconciliation engine (container state machine, dependency
resolver, task manager, event pipeline) is not among the available
sources, so those parts are modelled from the specification text, as
marked on each definition.
-/

namespace EcsAgent

/-- Modelled from the spec: the container lifecycle states, totally
ordered NONE < PULLED < CREATED < RUNNING < STOPPED (spec section 3
"Invariants" and section 4.1).  The concrete container state machine
source file is not available. -/
inductive ContainerStatus : Type
  | NONE
  | PULLED
  | CREATED
  | RUNNING
  | STOPPED
  deriving DecidableEq, Repr

/-- Numeric rank realising the total order on `ContainerStatus`. -/
def ContainerStatus.rank : ContainerStatus → Nat
  | .NONE => 0
  | .PULLED => 1
  | .CREATED => 2
  | .RUNNING => 3
  | .STOPPED => 4

instance : LE ContainerStatus := ⟨fun a b => a.rank ≤ b.rank⟩

instance : LT ContainerStatus := ⟨fun a b => a.rank < b.rank⟩

instance (a b : ContainerStatus) : Decidable (a ≤ b) :=
  inferInstanceAs (Decidable (a.rank ≤ b.rank))

instance (a b : ContainerStatus) : Decidable (a < b) :=
  inferInstanceAs (Decidable (a.rank < b.rank))

/-- Modelled from the spec: applying one runtime event to a container's
`KnownStatus`.  "only monotonic forward moves are accepted from runtime
events — a late/duplicate event reporting an earlier state than already
known is discarded" (spec section 3).  The task-manager source file is
not available. -/
def applyRuntimeEvent (known : ContainerStatus) (event : ContainerStatus) :
    ContainerStatus :=
  if event.rank ≤ known.rank then known else event

/-- Modelled from the spec: the `KnownStatus` reached after a sequence of
runtime events is the left fold of `applyRuntimeEvent`. -/
def knownAfter (init : ContainerStatus) (events : List ContainerStatus) :
    ContainerStatus :=
  events.foldl applyRuntimeEvent init

/-- Modelled from the spec: the dependency conditions a container may
declare on a sibling container (spec section 4.2): condition ∈
{START, COMPLETE, SUCCESS, HEALTHY}.  The dependency-resolver source
file is not available. -/
inductive DependencyCondition : Type
  | START
  | COMPLETE
  | SUCCESS
  | HEALTHY
  deriving DecidableEq, Repr

/-- Modelled from the spec: a container's health-check status. -/
inductive HealthStatus : Type
  | UNKNOWN
  | HEALTHY
  | UNHEALTHY
  deriving DecidableEq, Repr

/-- Modelled from the spec: a task resource's lifecycle status
(NONE → CREATED → REMOVED, spec section 3). -/
inductive ResourceStatus : Type
  | NONE
  | CREATED
  | REMOVED
  deriving DecidableEq, Repr

/-- Modelled from the spec: a declared dependency edge
`{containerName, condition}` (spec section 4.2). -/
structure ContainerDependency : Type where
  dependencyName : String
  condition : DependencyCondition
  deriving DecidableEq, Repr

/-- Modelled from the spec: a task-resource dependency (e.g. a volume
must be CREATED before a container can start, spec section 4.2). -/
structure ResourceDependency : Type where
  resourceName : String
  requiredStatus : ResourceStatus
  deriving DecidableEq, Repr

/-- Modelled from the spec: the per-container state the reconciliation
engine tracks (spec section 3): identity, essential flag,
`DesiredStatus`, `KnownStatus`, `AppliedStatus`, health, exit code and
declared dependencies.  The task-manager source file is not
available. -/
structure Container : Type where
  name : String
  essential : Bool
  desiredStatus : ContainerStatus
  knownStatus : ContainerStatus
  appliedStatus : ContainerStatus
  healthStatus : HealthStatus
  exitCode : Option Int
  dependsOn : List ContainerDependency
  dependsOnResources : List ResourceDependency
  deriving DecidableEq, Repr

/-- Modelled from the spec: a task resource (volume, secret,
credential) with its own small state machine (spec section 3). -/
structure TaskResource : Type where
  name : String
  knownStatus : ResourceStatus
  deriving DecidableEq, Repr

/-- Modelled from the spec: look up a sibling container by name. -/
def findContainer (taskContainers : List Container) (name : String) :
    Option Container :=
  taskContainers.find? (fun c => c.name == name)

/-- Modelled from the spec: whether a dependency container currently
meets a condition's required minimum state: "START requires
RUNNING-or-later; COMPLETE requires STOPPED; SUCCESS requires STOPPED
with exit code 0; HEALTHY requires health-check status HEALTHY"
(spec section 4.2). -/
def conditionSatisfied (dep : Container) : DependencyCondition → Bool
  | .START => decide (ContainerStatus.RUNNING ≤ dep.knownStatus)
  | .COMPLETE => dep.knownStatus == .STOPPED
  | .SUCCESS => dep.knownStatus == .STOPPED && dep.exitCode == some 0
  | .HEALTHY => dep.healthStatus == .HEALTHY

/-- Modelled from the spec: one declared edge is resolved when the
dependency container exists and currently satisfies the condition. -/
def edgeResolved (taskContainers : List Container)
    (d : ContainerDependency) : Bool :=
  match findContainer taskContainers d.dependencyName with
  | some dep => conditionSatisfied dep d.condition
  | none => false

/-- Modelled from the spec: look up a task resource by name. -/
def findResource (resources : List TaskResource) (name : String) :
    Option TaskResource :=
  resources.find? (fun r => r.name == name)

/-- Modelled from the spec: a task-resource dependency is resolved when
the resource exists and has reached the required status. -/
def resourceResolved (resources : List TaskResource)
    (rd : ResourceDependency) : Bool :=
  match findResource resources rd.resourceName with
  | some r => r.knownStatus == rd.requiredStatus
  | none => false

/-- Modelled from the spec: `dependenciesAreResolved` — "All edges plus
all resource dependencies must be satisfied simultaneously
(conjunction)" (spec section 4.2). -/
def dependenciesAreResolved (c : Container)
    (taskContainers : List Container) (resources : List TaskResource) :
    Bool :=
  c.dependsOn.all (edgeResolved taskContainers) &&
    c.dependsOnResources.all (resourceResolved resources)

/-- Modelled from the spec: the runtime operations the task manager can
issue through the container runtime client (pull → create → start →
stop → remove, spec sections 4.1 and 6). -/
inductive RuntimeOp : Type
  | pull (containerName : String)
  | create (containerName : String)
  | start (containerName : String)
  | stop (containerName : String)
  | remove (containerName : String)
  deriving DecidableEq, Repr

/-- Modelled from the spec: a container still waiting in the topological
sort is blocked when one of its declared edges points at a container
that has not been placed yet (its name is still among the remaining
names). -/
def hasUnplacedDependency (remainingNames : List String)
    (c : Container) : Bool :=
  c.dependsOn.any (fun d => remainingNames.contains d.dependencyName)

/-- Modelled from the spec: one topological sort over the declared
edges, by rounds (spec section 4.2).  Each round places every container
whose declared dependencies are all placed; if a round places nothing
while containers remain, the declared edges contain a cycle and the
sort fails (`false`).  `true` means the graph is acyclic. -/
def topoSortRounds : Nat → List Container → Bool
  | 0, remaining => remaining.isEmpty
  | fuel + 1, remaining =>
    if remaining.isEmpty then true
    else
      let names := remaining.map (fun c => c.name)
      let stuck := remaining.filter (hasUnplacedDependency names)
      if stuck.length = remaining.length then false
      else topoSortRounds fuel stuck

/-- Modelled from the spec: the task-registration acyclicity check,
"performed once at task-registration time (topological sort over the
declared edges)" (spec section 4.2). -/
def dependencyGraphAcyclic (containers : List Container) : Bool :=
  topoSortRounds containers.length containers

/-- The fatal validation error for a cyclic dependency graph. -/
def circularDependencyMsg : String := "cycle found in container dependency graph"

/-- Modelled from the spec: task registration — "a cycle is a fatal
validation error rejecting the task before any container is started"
(spec section 4.2). -/
def registerTask (containers : List Container) :
    Except String (List Container) :=
  if dependencyGraphAcyclic containers then Except.ok containers
  else Except.error circularDependencyMsg

/-- Modelled from the spec: the runtime operations the engine issues for
a freshly registered task (the first atomic operation, a pull, for every
container, spec section 4.1). -/
def initialRuntimeOps (containers : List Container) : List RuntimeOp :=
  containers.map (fun c => RuntimeOp.pull c.name)

/-- Modelled from the spec: the engine's handling of an inbound task
spec — validate the dependency graph at registration, and only a task
that registered successfully has runtime operations issued for its
containers (spec section 4.4). -/
def handleTaskSpec (containers : List Container) : List RuntimeOp :=
  match registerTask containers with
  | Except.ok t => initialRuntimeOps t
  | Except.error _ => []

/-- Modelled from the spec: the entity a state-change event is about —
a task, a task+container, or a task+attachment (spec section 4.5).
The event-pipeline source file is not available. -/
inductive EventEntity : Type
  | task (taskArn : String)
  | container (taskArn : String) (containerName : String)
  | attachment (taskArn : String) (attachmentId : String)
  deriving DecidableEq, Repr

/-- Modelled from the spec: an immutable state-change event (task id /
optional container or attachment id folded into `entity`, new status,
optional reason and exit code, timestamp; spec section 3). -/
structure StateChangeEvent : Type where
  entity : EventEntity
  status : ContainerStatus
  reason : Option String
  exitCode : Option Int
  timestamp : Nat
  deriving DecidableEq, Repr

/-- Modelled from the spec: submitting one event to the pipeline's
pending queue — "for a given entity ... only the most recent event is
queued for sending if an earlier one for the same entity has not yet
been sent — superseding, not accumulating" (spec section 4.5): any
queued event for the same entity is dropped and the new event queued. -/
def submitEvent (pending : List StateChangeEvent)
    (e : StateChangeEvent) : List StateChangeEvent :=
  pending.filter (fun e2 => e2.entity != e.entity) ++ [e]

/-- Modelled from the spec: the queued-but-unsent events for one entity
(what the sender would transmit for that entity on the next send). -/
def pendingFor (k : EventEntity) (pending : List StateChangeEvent) :
    List StateChangeEvent :=
  pending.filter (fun e => e.entity == k)

/-- A sample CREATED event for container c1 of task1. -/
def sampleEventCreated : StateChangeEvent :=
  ⟨.container "task1" "c1", .CREATED, none, none, 1⟩

/-- A sample RUNNING event for container c1 of task1. -/
def sampleEventRunning : StateChangeEvent :=
  ⟨.container "task1" "c1", .RUNNING, none, none, 2⟩

/-- A sample STOPPED event for container c1 of task1. -/
def sampleEventStopped : StateChangeEvent :=
  ⟨.container "task1" "c1", .STOPPED, none, some 0, 3⟩

/-- Modelled from the spec: the task manager's handling of an observed
container stop.  The named container's `KnownStatus` moves to STOPPED
(through the monotonic `applyRuntimeEvent`) and its exit code is
recorded; if the stopped container is essential and the exit code is
non-zero, every *other* container's `DesiredStatus` is forced to
STOPPED ("essential container died" rule, spec sections 4.1 and
4.3). -/
def applyContainerStoppedEvent (t : List Container)
    (stoppedName : String) (code : Int) : List Container :=
  let updated := t.map (fun c =>
    if c.name == stoppedName then
      { c with knownStatus := applyRuntimeEvent c.knownStatus .STOPPED,
               exitCode := some code }
    else c)
  if code != 0 && t.any (fun c => c.name == stoppedName && c.essential) then
    updated.map (fun c =>
      if c.name == stoppedName then c
      else { c with desiredStatus := .STOPPED })
  else updated

/-- Modelled from the spec: one reconciliation look at one container.
A container whose `DesiredStatus` is STOPPED, whose `KnownStatus` is
not yet STOPPED and whose `AppliedStatus` is not already STOPPED is
issued one stop operation, and its `AppliedStatus` is set to STOPPED
"to suppress duplicate issuance" (spec sections 3 and 4.3). -/
def containerStep (c : Container) : Container × Option RuntimeOp :=
  if c.desiredStatus == .STOPPED && decide (c.knownStatus < .STOPPED) &&
      c.appliedStatus != .STOPPED then
    ({ c with appliedStatus := .STOPPED }, some (RuntimeOp.stop c.name))
  else (c, none)

/-- Modelled from the spec: one pass of the steadyState loop over all
containers of a task, returning the updated containers and the runtime
operations issued in this pass. -/
def reconcileStep (t : List Container) : List Container × List RuntimeOp :=
  (t.map (fun c => (containerStep c).1),
   t.filterMap (fun c => (containerStep c).2))

/-- Modelled from the spec: the runtime operations issued over `n`
repeated evaluations of the reconciliation loop. -/
def reconcileOps : Nat → List Container → List RuntimeOp
  | 0, _ => []
  | n + 1, t => (reconcileStep t).2 ++ reconcileOps n (reconcileStep t).1

/-- The per-container effect of `applyContainerStoppedEvent` when the
stopped container is essential with a non-zero exit code: the stopped
container records the stop, every other container's `DesiredStatus` is
forced to STOPPED. -/
def stoppedEventUpdate (stoppedName : String) (code : Int)
    (c : Container) : Container :=
  if c.name == stoppedName then
    { c with knownStatus := applyRuntimeEvent c.knownStatus .STOPPED,
             exitCode := some code }
  else { c with desiredStatus := .STOPPED }

/-- The essential container of the `essentialExit` witness task. -/
def sampleEssentialA : Container :=
  { name := "A", essential := true, desiredStatus := .RUNNING,
    knownStatus := .RUNNING, appliedStatus := .RUNNING,
    healthStatus := .UNKNOWN, exitCode := none,
    dependsOn := [], dependsOnResources := [] }

/-- The non-essential container of the `essentialExit` witness task. -/
def sampleNonEssentialB : Container :=
  { name := "B", essential := false, desiredStatus := .RUNNING,
    knownStatus := .RUNNING, appliedStatus := .RUNNING,
    healthStatus := .UNKNOWN, exitCode := none,
    dependsOn := [], dependsOnResources := [] }

/-- Modelled from the spec: the retry bookkeeping the task manager
keeps for one container and one target status — the number of failed
attempts so far and the container's `DesiredStatus` (spec section 4.3:
"up to a bounded number of attempts per container per status").  The
task-manager source file is not available. -/
structure RetryState : Type where
  attempts : Nat
  desiredStatus : ContainerStatus
  deriving DecidableEq, Repr

/-- Modelled from the spec: one runtime-client error for the container
and status.  The attempt counter is incremented; when the bound
`maxAttempts` is reached the container's `DesiredStatus` is set to
STOPPED ("exhausting retries marks that container's desired status as
STOPPED (give up, report failure)", spec section 4.3). -/
def onRuntimeError (maxAttempts : Nat) (s : RetryState) : RetryState :=
  if maxAttempts ≤ s.attempts + 1 then
    { attempts := s.attempts + 1, desiredStatus := .STOPPED }
  else { s with attempts := s.attempts + 1 }

/-- Modelled from the spec: the retry loop against an always-failing
runtime operation: as long as the container is not yet given up on
(`DesiredStatus` ≠ STOPPED) the operation is attempted again and fails
again.  Returns the final state and how many attempts were made within
`fuel` loop iterations. -/
def retryLoop (maxAttempts : Nat) : Nat → RetryState → RetryState × Nat
  | 0, s => (s, 0)
  | fuel + 1, s =>
    if s.desiredStatus = .STOPPED then (s, 0)
    else
      let r := retryLoop maxAttempts fuel (onRuntimeError maxAttempts s)
      (r.1, r.2 + 1)

namespace ClientFactory

/-- Split a version string's characters at the dots
(`"1.20"` ↦ `[['1'], ['2','0']]`). -/
def splitOnDots : List Char → List (List Char)
  | [] => [[]]
  | c :: cs =>
    match splitOnDots cs with
    | [] => [[c]]
    | g :: gs =>
      if c = '.' then [] :: g :: gs else (c :: g) :: gs

/-- A non-empty all-digit character group as a number. -/
def charsToNat (cs : List Char) : Option Nat :=
  if !cs.isEmpty && cs.all Char.isDigit then
    some (cs.foldl (fun n c => n * 10 + (c.toNat - 48)) 0)
  else none

/-- Modelled from the spec: parsing a dotted Docker API version string
into numeric components.  The version-comparison helper the factory
calls (`DockerAPIVersion.Matches`, backed by the agent's version
utilities) is not among the available sources; it parses each
dot-separated component as a number and fails on anything else. -/
def parseVersionParts (s : String) : Option (List Nat) :=
  let groups := (splitOnDots s.toList).map charsToNat
  if groups.all Option.isSome then some (groups.map (fun o => o.getD 0))
  else none

/-- Modelled from the spec: numeric comparison of dotted versions,
componentwise lexicographic with zero padding. -/
def versionLt : List Nat → List Nat → Bool
  | [], b => b.any (fun y => decide (0 < y))
  | x :: xs, [] => x == 0 && versionLt xs []
  | x :: xs, y :: ys => decide (x < y) || (x == y && versionLt xs ys)

/-- Modelled from the spec: `DockerAPIVersion(version).Matches("<" + bound)`
— true when `version` is strictly below `bound`; an error when either
side does not parse. -/
def matchesLessThan (version bound : String) : Except String Bool :=
  match parseVersionParts version, parseVersionParts bound with
  | some v, some b => Except.ok (versionLt v b)
  | _, _ => Except.error "unable to parse version"

/-- Modelled from the spec: `DockerAPIVersion(version).Matches(">" + bound)`
— true when `version` is strictly above `bound`; an error when either
side does not parse. -/
def matchesGreaterThan (version bound : String) : Except String Bool :=
  match parseVersionParts version, parseVersionParts bound with
  | some v, some b => Except.ok (versionLt b v)
  | _, _ => Except.error "unable to parse version"

/-- Embedded from
`agent/dockerclient/clientfactory/dockerclientfactory.go` lines
196–204: create a versioned client for `version` and ping the daemon
with it; any failure is an error.  The concrete client constructor and
ping are external effects, passed in as oracles. -/
def createAndPing {Client : Type}
    (newVersionedClient : String → Except String Client)
    (ping : Client → Except String Unit) (version : String) :
    Except String Client :=
  match newVersionedClient version with
  | Except.error e => Except.error e
  | Except.ok client =>
    match ping client with
    | Except.error e => Except.error e
    | Except.ok _ => Except.ok client

/-- Embedded from
`agent/dockerclient/clientfactory/dockerclientfactory.go` lines
174–205 (`getDockerClientForVersion`): when the daemon reported both a
`MinAPIVersion` and an `ApiVersion` (both non-empty), a candidate
version matching `< MinAPIVersion` or `> ApiVersion` is rejected with
an error (as is a version-comparison failure); otherwise the client is
created and pinged. -/
def getDockerClientForVersion {Client : Type}
    (newVersionedClient : String → Except String Client)
    (ping : Client → Except String Unit)
    (version minAPIVersion apiVersion : String) : Except String Client :=
  if minAPIVersion ≠ "" ∧ apiVersion ≠ "" then
    match matchesLessThan version minAPIVersion with
    | Except.error e => Except.error e
    | Except.ok minVersionCheck =>
      match matchesGreaterThan version apiVersion with
      | Except.error e => Except.error e
      | Except.ok maxVersionCheck =>
        if minVersionCheck || maxVersionCheck then
          Except.error ("version detection using MinAPIVersion: unsupported version: "
            ++ version)
        else createAndPing newVersionedClient ping version
  else createAndPing newVersionedClient ping version

/-- Embedded from
`agent/dockerclient/clientfactory/dockerclientfactory.go` lines
138–172 (`findDockerVersions`): loop over the known API versions and
keep a client for each version `getDockerClientForVersion` accepts.
The daemon-reported `MinAPIVersion`/`ApiVersion` strings (empty when
the daemon did not report them) are parameters, and the Go map is
modelled as an association list. -/
def findDockerVersions {Client : Type}
    (newVersionedClient : String → Except String Client)
    (ping : Client → Except String Unit)
    (knownAPIVersions : List String)
    (minAPIVersion apiVersion : String) : List (String × Client) :=
  knownAPIVersions.foldl
    (fun clients version =>
      match getDockerClientForVersion newVersionedClient ping version
          minAPIVersion apiVersion with
      | Except.error _ => clients
      | Except.ok dockerClient => clients ++ [(version, dockerClient)])
    []

/-- Embedded from
`agent/dockerclient/clientfactory/dockerclientfactory.go` lines
115–123 (`FindClientAPIVersion`): look the client up in the factory's
version map and return its version key, falling back to the default
version when it is not found.  The Go map is the association list,
`getDefaultVersion` (platform-specific, not among the available
sources) is a parameter. -/
def FindClientAPIVersion {Client : Type} [DecidableEq Client]
    (clients : List (String × Client)) (getDefaultVersion : String)
    (client : Client) : String :=
  match clients.find? (fun p => p.2 == client) with
  | some p => p.1
  | none => getDefaultVersion

end ClientFactory

namespace ECS

/-- Embedded from `agent/ecs_client/model/ecs/api.go` lines 8239–8253
(`NetworkBinding`): pointer fields become `Option`, int64 becomes
`Int`. -/
structure NetworkBinding : Type where
  BindIP : Option String
  ContainerPort : Option Int
  HostPort : Option Int
  Protocol : Option String
  deriving DecidableEq, Repr

/-- Embedded from `agent/ecs_client/model/ecs/api.go` lines 5154–5172
(`ContainerStateChange`): the per-container entry of a task
state-change report. -/
structure ContainerStateChange : Type where
  ContainerName : Option String
  ExitCode : Option Int
  NetworkBindings : List (Option NetworkBinding)
  Reason : Option String
  Status : Option String
  deriving DecidableEq, Repr

/-- Embedded from `agent/ecs_client/model/ecs/api.go` lines 3806–3818
(`AttachmentStateChange`): both fields are marked required. -/
structure AttachmentStateChange : Type where
  AttachmentArn : Option String
  Status : Option String
  deriving DecidableEq, Repr

/-- Embedded from `agent/ecs_client/model/ecs/api.go` lines
10322–10352 (`SubmitTaskStateChangeInput`): the outbound batched task
state-change report.  `time.Time` timestamps become `Int` (Unix
time). -/
structure SubmitTaskStateChangeInput : Type where
  Attachments : List (Option AttachmentStateChange)
  Cluster : Option String
  Containers : List (Option ContainerStateChange)
  ExecutionStoppedAt : Option Int
  PullStartedAt : Option Int
  PullStoppedAt : Option Int
  Reason : Option String
  Status : Option String
  Task : Option String
  deriving DecidableEq, Repr

/-- Embedded from `agent/ecs_client/model/ecs/api.go` lines 3831–3838:
the required parameters of an `AttachmentStateChange` that are nil. -/
def AttachmentStateChange.requiredParamErrors
    (s : AttachmentStateChange) : List String :=
  (if s.AttachmentArn = none then ["AttachmentArn"] else []) ++
    (if s.Status = none then ["Status"] else [])

/-- Embedded from `agent/ecs_client/model/ecs/api.go` lines 3831–3844
(`AttachmentStateChange.Validate`): an `ErrInvalidParams` error —
modelled as the list of offending parameter names — when a required
field is nil, and no error (`none`) otherwise. -/
def AttachmentStateChange.Validate (s : AttachmentStateChange) :
    Option (List String) :=
  if s.requiredParamErrors.length > 0 then some s.requiredParamErrors
  else none

/-- Embedded from `agent/ecs_client/model/ecs/api.go` lines
10367–10376: the nested validation errors one `Attachments[i]` entry
contributes — none for a nil entry, none for a valid entry, and the
entry's own errors under the `Attachments[i]` context otherwise. -/
def attachmentEntryErrors (p : Nat × Option AttachmentStateChange) :
    List String :=
  match p.2 with
  | none => []
  | some v =>
    match AttachmentStateChange.Validate v with
    | none => []
    | some errs =>
      errs.map (fun e => "Attachments[" ++ toString p.1 ++ "]." ++ e)

/-- All nested attachment errors of a report, in order. -/
def SubmitTaskStateChangeInput.nestedAttachmentErrors
    (s : SubmitTaskStateChangeInput) : List String :=
  (s.Attachments.enum.map attachmentEntryErrors).flatten

/-- Embedded from `agent/ecs_client/model/ecs/api.go` lines
10365–10382 (`SubmitTaskStateChangeInput.Validate`): only the
`Attachments` list is inspected — each non-nil entry is validated and
its errors nested — and an error is returned exactly when some entry
produced one. -/
def SubmitTaskStateChangeInput.Validate (s : SubmitTaskStateChangeInput) :
    Option (List String) :=
  if s.nestedAttachmentErrors.length > 0 then
    some s.nestedAttachmentErrors
  else none

end ECS

theorem applyRuntimeEvent_le (known event : ContainerStatus) :
    known ≤ applyRuntimeEvent known event := by
  unfold applyRuntimeEvent
  by_cases h : event.rank ≤ known.rank
  · simp [h]; exact Nat.le_refl _
  · simp [h]
    show known.rank ≤ event.rank
    exact Nat.le_of_lt (Nat.lt_of_not_le h)

theorem knownAfter_le (init : ContainerStatus) (events : List ContainerStatus) :
    init ≤ knownAfter init events := by
  induction events generalizing init with
  | nil => exact Nat.le_refl _
  | cons e es ih =>
    calc init.rank ≤ (applyRuntimeEvent init e).rank := applyRuntimeEvent_le init e
      _ ≤ (knownAfter (applyRuntimeEvent init e) es).rank := ih _

/-- C1: a container's `KnownStatus` never regresses: every runtime event
moves it forward or leaves it unchanged (so the sequence of values along
any event sequence is non-decreasing), and an event reporting a status
strictly earlier than the current `KnownStatus` leaves it unchanged
(discarded), regardless of delivery order. -/
theorem knownStatus_monotone_and_discard_stale
    (init : ContainerStatus) (events : List ContainerStatus) :
    (∀ prefixEvents, prefixEvents <+: events →
      knownAfter init prefixEvents ≤ knownAfter init events) ∧
    (∀ known event : ContainerStatus, event < known →
      applyRuntimeEvent known event = known) := by
  constructor
  · rintro p ⟨rest, hrest⟩
    subst hrest
    unfold knownAfter
    rw [List.foldl_append]
    exact knownAfter_le _ rest
  · intro known event hlt
    unfold applyRuntimeEvent
    simp [Nat.le_of_lt hlt]

/-- Concrete instantiation of `knownStatus_monotone_and_discard_stale`:
a RUNNING → (stale CREATED event) trace leaves `KnownStatus` at
RUNNING. -/
theorem knownStatus_monotone_and_discard_stale_witness :
    (ContainerStatus.CREATED < ContainerStatus.RUNNING) ∧
    applyRuntimeEvent .RUNNING .CREATED = .RUNNING ∧
    knownAfter .NONE [.PULLED, .CREATED, .RUNNING, .CREATED] = .RUNNING := by
  refine ⟨by decide, ?_, by decide⟩
  exact (knownStatus_monotone_and_discard_stale .NONE []).2 .RUNNING .CREATED
    (by decide)

theorem edgeResolved_iff (tcs : List Container) (d : ContainerDependency) :
    edgeResolved tcs d = true ↔
      ∃ dep, findContainer tcs d.dependencyName = some dep ∧
        ((d.condition = .START → ContainerStatus.RUNNING ≤ dep.knownStatus) ∧
         (d.condition = .COMPLETE → dep.knownStatus = .STOPPED) ∧
         (d.condition = .SUCCESS →
            dep.knownStatus = .STOPPED ∧ dep.exitCode = some 0) ∧
         (d.condition = .HEALTHY → dep.healthStatus = .HEALTHY)) := by
  unfold edgeResolved
  cases h : findContainer tcs d.dependencyName with
  | none => simp
  | some dep =>
    simp only [h, Option.some.injEq]
    constructor
    · intro hc
      refine ⟨dep, rfl, ?_⟩
      cases hcond : d.condition <;>
        simp [conditionSatisfied, hcond] at hc <;> simp [hc]
    · rintro ⟨dep', rfl, h1, h2, h3, h4⟩
      cases hcond : d.condition <;>
        simp [conditionSatisfied]
      · exact h1 hcond
      · exact h2 hcond
      · exact h3 hcond
      · exact h4 hcond

theorem resourceResolved_iff (res : List TaskResource)
    (rd : ResourceDependency) :
    resourceResolved res rd = true ↔
      ∃ r, findResource res rd.resourceName = some r ∧
        r.knownStatus = rd.requiredStatus := by
  unfold resourceResolved
  cases h : findResource res rd.resourceName with
  | none => simp
  | some r => simp [h]

/-- C4: `dependenciesAreResolved` returns true iff every declared
dependency edge meets its condition's required minimum state (START →
RUNNING-or-later, COMPLETE → STOPPED, SUCCESS → STOPPED with exit code
0, HEALTHY → health HEALTHY) and every task-resource dependency is
simultaneously satisfied: the conjunction over all edges and resource
dependencies. -/
theorem dependenciesAreResolved_iff (c : Container)
    (tcs : List Container) (res : List TaskResource) :
    dependenciesAreResolved c tcs res = true ↔
      ((∀ d ∈ c.dependsOn,
          ∃ dep, findContainer tcs d.dependencyName = some dep ∧
            ((d.condition = .START →
                ContainerStatus.RUNNING ≤ dep.knownStatus) ∧
             (d.condition = .COMPLETE → dep.knownStatus = .STOPPED) ∧
             (d.condition = .SUCCESS →
                dep.knownStatus = .STOPPED ∧ dep.exitCode = some 0) ∧
             (d.condition = .HEALTHY → dep.healthStatus = .HEALTHY))) ∧
       (∀ rd ∈ c.dependsOnResources,
          ∃ r, findResource res rd.resourceName = some r ∧
            r.knownStatus = rd.requiredStatus)) := by
  unfold dependenciesAreResolved
  rw [Bool.and_eq_true, List.all_eq_true, List.all_eq_true]
  constructor
  · rintro ⟨h1, h2⟩
    exact ⟨fun d hd => (edgeResolved_iff tcs d).mp (h1 d hd),
           fun rd hrd => (resourceResolved_iff res rd).mp (h2 rd hrd)⟩
  · rintro ⟨h1, h2⟩
    exact ⟨fun d hd => (edgeResolved_iff tcs d).mpr (h1 d hd),
           fun rd hrd => (resourceResolved_iff res rd).mpr (h2 rd hrd)⟩

theorem topoSortRounds_false_of_blocked_set (fuel : Nat)
    (remaining S : List Container) (hne : S ≠ [])
    (hsub : ∀ c ∈ S, c ∈ remaining)
    (hblock : ∀ c ∈ S, ∃ d ∈ c.dependsOn, ∃ c' ∈ S,
      c'.name = d.dependencyName) :
    topoSortRounds fuel remaining = false := by
  induction fuel generalizing remaining with
  | zero =>
    obtain ⟨c, hc⟩ := List.exists_mem_of_ne_nil S hne
    simpa [topoSortRounds, List.isEmpty_iff] using
      List.ne_nil_of_mem (hsub c hc)
  | succ n ih =>
    obtain ⟨c0, hc0⟩ := List.exists_mem_of_ne_nil S hne
    have hremne : remaining ≠ [] := List.ne_nil_of_mem (hsub c0 hc0)
    have hsub' : ∀ c ∈ S,
        c ∈ remaining.filter
          (hasUnplacedDependency (remaining.map (fun c => c.name))) := by
      intro c hc
      rw [List.mem_filter]
      refine ⟨hsub c hc, ?_⟩
      obtain ⟨d, hd, c', hc', hname⟩ := hblock c hc
      unfold hasUnplacedDependency
      rw [List.any_eq_true]
      refine ⟨d, hd, ?_⟩
      refine List.elem_eq_true_of_mem ?_
      rw [← hname]
      exact List.mem_map_of_mem _ (hsub c' hc')
    unfold topoSortRounds
    simp only [List.isEmpty_iff, hremne, if_false]
    by_cases hlen :
        (remaining.filter
          (hasUnplacedDependency (remaining.map (fun c => c.name)))).length =
          remaining.length
    · simp [hlen]
    · simp only [hlen, if_false]
      exact ih _ hsub'

/-- C3: a task spec whose declared container dependency edges form a
cycle (an explicit cyclic chain `cyc` of containers of the task, each
declaring a dependency on the next, wrapping around) fails registration
with the fatal validation error, and no runtime operation is issued for
any container of the task. -/
theorem cyclicTask_rejected_before_any_op
    (containers cyc : List Container) (hne : cyc ≠ [])
    (hsub : ∀ c ∈ cyc, c ∈ containers)
    (hedge : ∀ i : Fin cyc.length, ∃ d ∈ (cyc.get i).dependsOn,
      (cyc.get ⟨(i.val + 1) % cyc.length,
        Nat.mod_lt _ (List.length_pos.mpr hne)⟩).name = d.dependencyName) :
    registerTask containers = Except.error circularDependencyMsg ∧
      handleTaskSpec containers = [] := by
  have hacyclic : dependencyGraphAcyclic containers = false := by
    unfold dependencyGraphAcyclic
    refine topoSortRounds_false_of_blocked_set _ _ cyc hne hsub ?_
    intro c hc
    obtain ⟨i, hi⟩ := List.mem_iff_get.mp hc
    obtain ⟨d, hd, hname⟩ := hedge i
    subst hi
    exact ⟨d, hd, _, List.get_mem _ _ _, hname⟩
  have hreg : registerTask containers = Except.error circularDependencyMsg := by
    unfold registerTask
    simp [hacyclic]
  refine ⟨hreg, ?_⟩
  unfold handleTaskSpec
  rw [hreg]

/-- Concrete two-container cycle (A depends on B starting, B depends on
A starting): registration fails and no runtime operation is issued. -/
theorem cyclicTask_rejected_before_any_op_witness :
    registerTask
        [{ name := "A", essential := true, desiredStatus := .RUNNING,
           knownStatus := .NONE, appliedStatus := .NONE,
           healthStatus := .UNKNOWN, exitCode := none,
           dependsOn := [⟨"B", .START⟩], dependsOnResources := [] },
         { name := "B", essential := true, desiredStatus := .RUNNING,
           knownStatus := .NONE, appliedStatus := .NONE,
           healthStatus := .UNKNOWN, exitCode := none,
           dependsOn := [⟨"A", .START⟩], dependsOnResources := [] }] =
      Except.error circularDependencyMsg ∧
    handleTaskSpec
        [{ name := "A", essential := true, desiredStatus := .RUNNING,
           knownStatus := .NONE, appliedStatus := .NONE,
           healthStatus := .UNKNOWN, exitCode := none,
           dependsOn := [⟨"B", .START⟩], dependsOnResources := [] },
         { name := "B", essential := true, desiredStatus := .RUNNING,
           knownStatus := .NONE, appliedStatus := .NONE,
           healthStatus := .UNKNOWN, exitCode := none,
           dependsOn := [⟨"A", .START⟩], dependsOnResources := [] }] = [] :=
  cyclicTask_rejected_before_any_op _
    [{ name := "A", essential := true, desiredStatus := .RUNNING,
       knownStatus := .NONE, appliedStatus := .NONE,
       healthStatus := .UNKNOWN, exitCode := none,
       dependsOn := [⟨"B", .START⟩], dependsOnResources := [] },
     { name := "B", essential := true, desiredStatus := .RUNNING,
       knownStatus := .NONE, appliedStatus := .NONE,
       healthStatus := .UNKNOWN, exitCode := none,
       dependsOn := [⟨"A", .START⟩], dependsOnResources := [] }]
    (by decide) (by decide) (by decide)

theorem pendingFor_submitEvent (q : List StateChangeEvent)
    (e : StateChangeEvent) (k : EventEntity) :
    pendingFor k (submitEvent q e) =
      if e.entity = k then [e] else pendingFor k q := by
  unfold pendingFor submitEvent
  rw [List.filter_append]
  by_cases hk : e.entity = k
  · rw [if_pos hk]
    have hnil :
        (q.filter (fun e2 => e2.entity != e.entity)).filter
          (fun e2 => e2.entity == k) = [] := by
      rw [List.filter_eq_nil_iff]
      intro a ha
      rw [List.mem_filter] at ha
      simp only [bne_iff_ne, ne_eq, decide_eq_true_eq] at ha
      simp only [beq_iff_eq]
      rw [← hk]
      exact ha.2
    rw [hnil]
    simp [hk]
  · rw [if_neg hk]
    have hlast : List.filter (fun e2 => e2.entity == k) [e] = [] := by
      simp [hk]
    rw [hlast, List.append_nil, List.filter_filter]
    refine List.filter_congr ?_
    intro a _
    by_cases hak : a.entity = k
    · have hane : a.entity ≠ e.entity := fun h => hk (h ▸ hak)
      have hke : ¬k = e.entity := fun h => hk h.symm
      simp [hak, hane, hke]
    · simp [hak]

/-- C5: in the event pipeline a newer event for an entity supersedes an
earlier queued-but-unsent event for the same entity — after submitting
`e`, `e` is the only pending event for its entity — and for any
sequence of status-change events for one entity submitted before any
send completes, only the last event remains pending for transmission. -/
theorem eventPipeline_dedup (q es : List StateChangeEvent)
    (elast : StateChangeEvent) (k : EventEntity)
    (hk : ∀ e ∈ es ++ [elast], e.entity = k) :
    (∀ e : StateChangeEvent,
        pendingFor e.entity (submitEvent q e) = [e]) ∧
    pendingFor k ((es ++ [elast]).foldl submitEvent q) = [elast] := by
  constructor
  · intro e
    rw [pendingFor_submitEvent, if_pos rfl]
  · rw [List.foldl_append]
    simp only [List.foldl_cons, List.foldl_nil]
    rw [pendingFor_submitEvent,
      if_pos (hk elast (List.mem_append_right _ (List.mem_singleton.mpr rfl)))]

/-- Concrete instantiation of `eventPipeline_dedup`: three rapid status
changes for one container; only the last (STOPPED) event remains
pending. -/
theorem eventPipeline_dedup_witness :
    pendingFor (EventEntity.container "task1" "c1")
        (([sampleEventCreated, sampleEventRunning] ++
          [sampleEventStopped]).foldl submitEvent []) =
      [sampleEventStopped] :=
  (eventPipeline_dedup [] [sampleEventCreated, sampleEventRunning]
    sampleEventStopped (EventEntity.container "task1" "c1")
    (by decide)).2

theorem containerStep_cases (c : Container) :
    (containerStep c).2 = none ∧ (containerStep c).1 = c ∨
    (containerStep c).2 = some (RuntimeOp.stop c.name) ∧
      (containerStep c).1 = { c with appliedStatus := .STOPPED } := by
  unfold containerStep
  split
  · right; exact ⟨rfl, rfl⟩
  · left; exact ⟨rfl, rfl⟩

theorem containerStep_fst_name (c : Container) :
    ((containerStep c).1).name = c.name := by
  rcases containerStep_cases c with ⟨_, h⟩ | ⟨_, h⟩ <;> rw [h]

theorem containerStep_of_applied_stopped (c : Container)
    (h : c.appliedStatus = .STOPPED) : containerStep c = (c, none) := by
  unfold containerStep
  simp [h]

theorem count_stop_reconcileStep (s : List Container) (b : String) :
    ((reconcileStep s).2).count (RuntimeOp.stop b) =
      s.countP (fun c => c.name == b && ((containerStep c).2).isSome) := by
  induction s with
  | nil => rfl
  | cons c s ih =>
    have ih' : ((s.filterMap (fun c => (containerStep c).2)).count
        (RuntimeOp.stop b)) =
        s.countP (fun c => c.name == b && ((containerStep c).2).isSome) := ih
    show ((c :: s).filterMap (fun c => (containerStep c).2)).count
        (RuntimeOp.stop b) = _
    rw [List.filterMap_cons, List.countP_cons]
    rcases containerStep_cases c with ⟨hop, _⟩ | ⟨hop, _⟩
    · rw [hop]
      simp only [hop, Option.isSome_none, Bool.and_false, if_false,
        Nat.add_zero]
      exact ih'
    · rw [hop, List.count_cons]
      simp only [hop, Option.isSome_some, Bool.and_true]
      rw [ih']
      by_cases hname : c.name = b
      · simp [hname]
      · have h1 : (RuntimeOp.stop c.name == RuntimeOp.stop b) = false := by
          simp [hname]
        have h2 : (c.name == b) = false := by simp [hname]
        rw [h1, h2]

theorem reconcileOps_count_stop_zero (n : Nat) (s : List Container)
    (b : String)
    (h : ∀ c ∈ s, c.name = b → c.appliedStatus = .STOPPED) :
    (reconcileOps n s).count (RuntimeOp.stop b) = 0 := by
  induction n generalizing s with
  | zero => rfl
  | succ n ih =>
    unfold reconcileOps
    rw [List.count_append, count_stop_reconcileStep]
    have hzero :
        s.countP (fun c => c.name == b && ((containerStep c).2).isSome) = 0 := by
      rw [List.countP_eq_zero]
      intro c hc
      by_cases hname : c.name = b
      · rw [containerStep_of_applied_stopped c (h c hc hname)]
        simp
      · simp [hname]
    rw [hzero, Nat.zero_add]
    refine ih _ ?_
    intro x hx hxname
    obtain ⟨c, hc, rfl⟩ := List.mem_map.mp hx
    have hcname : c.name = b := by
      rw [← containerStep_fst_name c]; exact hxname
    have happ := h c hc hcname
    rw [containerStep_of_applied_stopped c happ]
    exact happ

theorem stoppedEventUpdate_name (stoppedName : String) (code : Int)
    (c : Container) :
    (stoppedEventUpdate stoppedName code c).name = c.name := by
  unfold stoppedEventUpdate
  split <;> rfl

theorem applyContainerStoppedEvent_of_essential (t : List Container)
    (stoppedName : String) (code : Int)
    (hcond : (code != 0 &&
      t.any (fun c => c.name == stoppedName && c.essential)) = true) :
    applyContainerStoppedEvent t stoppedName code =
      t.map (stoppedEventUpdate stoppedName code) := by
  unfold applyContainerStoppedEvent
  rw [if_pos hcond, List.map_map]
  refine List.map_congr_left ?_
  intro c _
  show (fun c =>
      if c.name == stoppedName then c
      else { c with desiredStatus := .STOPPED })
    ((fun c =>
      if c.name == stoppedName then
        { c with knownStatus := applyRuntimeEvent c.knownStatus .STOPPED,
                 exitCode := some code }
      else c) c) = stoppedEventUpdate stoppedName code c
  unfold stoppedEventUpdate
  by_cases hn : (c.name == stoppedName) = true
  · rw [if_pos hn]
    simp only
    rw [if_pos hn, if_pos hn]
  · rw [if_neg hn]
    simp only
    rw [if_neg hn, if_neg hn]

/-- C6: in a task whose containers have pairwise distinct names and
hold an essential container `A` and a non-essential container `B`, both
with `KnownStatus` RUNNING (and no stop already in flight for `B`),
when `A` is observed to stop with a non-zero exit code, `B`'s
`DesiredStatus` is forced to STOPPED, and over any number `n ≥ 1` of
re-evaluations of the reconciliation loop exactly one stop operation is
issued for `B` — never zero and never more than one. -/
theorem essentialExit_cascading_stop_exactly_once
    (t : List Container) (A B : Container) (code : Int)
    (hnodup : (t.map (fun c => c.name)).Nodup)
    (hA : A ∈ t) (hAess : A.essential = true)
    (_hAknown : A.knownStatus = .RUNNING)
    (hB : B ∈ t) (hBess : B.essential = false)
    (hBknown : B.knownStatus = .RUNNING)
    (hBapp : B.appliedStatus ≠ .STOPPED)
    (hcode : code ≠ 0) :
    (∀ c ∈ applyContainerStoppedEvent t A.name code,
        c.name = B.name → c.desiredStatus = .STOPPED) ∧
    (∀ n, 1 ≤ n →
        (reconcileOps n (applyContainerStoppedEvent t A.name code)).count
          (RuntimeOp.stop B.name) = 1) := by
  have inj := List.inj_on_of_nodup_map hnodup
  have hABname : A.name ≠ B.name := by
    intro h
    have : A = B := inj hA hB h
    rw [this, hBess] at hAess
    exact Bool.false_ne_true hAess
  have hcond : (code != 0 &&
      t.any (fun c => c.name == A.name && c.essential)) = true := by
    rw [Bool.and_eq_true, List.any_eq_true]
    exact ⟨bne_iff_ne.mpr hcode, A, hA, by simp [hAess]⟩
  have ht' := applyContainerStoppedEvent_of_essential t A.name code hcond
  have hBup : stoppedEventUpdate A.name code B =
      { B with desiredStatus := .STOPPED } := by
    unfold stoppedEventUpdate
    rw [if_neg (by
      simp only [beq_iff_eq]
      exact fun h => hABname h.symm)]
  have huniq : ∀ c ∈ applyContainerStoppedEvent t A.name code,
      c.name = B.name → c = { B with desiredStatus := .STOPPED } := by
    intro c hc hcname
    rw [ht'] at hc
    obtain ⟨c0, hc0, rfl⟩ := List.mem_map.mp hc
    rw [stoppedEventUpdate_name] at hcname
    rw [inj hc0 hB hcname]
    exact hBup
  have hstepB : containerStep { B with desiredStatus := .STOPPED } =
      ({ B with desiredStatus := .STOPPED, appliedStatus := .STOPPED },
       some (RuntimeOp.stop B.name)) := by
    unfold containerStep
    rw [if_pos]
    show (ContainerStatus.STOPPED == ContainerStatus.STOPPED &&
        decide (B.knownStatus < ContainerStatus.STOPPED) &&
        B.appliedStatus != ContainerStatus.STOPPED) = true
    rw [hBknown]
    simp only [Bool.and_eq_true, decide_eq_true_eq]
    exact ⟨⟨by simp, by decide⟩, bne_iff_ne.mpr hBapp⟩
  refine ⟨fun c hc hcname => by rw [huniq c hc hcname], ?_⟩
  intro n hn
  obtain ⟨m, rfl⟩ : ∃ m, n = m + 1 :=
    ⟨n - 1, (Nat.succ_pred_eq_of_pos hn).symm⟩
  unfold reconcileOps
  rw [List.count_append]
  have hround1 :
      ((reconcileStep (applyContainerStoppedEvent t A.name code)).2).count
        (RuntimeOp.stop B.name) = 1 := by
    rw [count_stop_reconcileStep]
    have hcongr :
        (applyContainerStoppedEvent t A.name code).countP
          (fun c => c.name == B.name && ((containerStep c).2).isSome) =
        (applyContainerStoppedEvent t A.name code).countP
          (fun c => c.name == B.name) := by
      refine List.countP_congr ?_
      intro c hc
      simp only [Bool.and_eq_true, beq_iff_eq, and_iff_left_iff_imp]
      intro hcname
      rw [huniq c hc hcname, hstepB]
      rfl
    rw [hcongr, ht', List.countP_map]
    have hnames :
        (t.countP ((fun c => c.name == B.name) ∘
          stoppedEventUpdate A.name code)) =
        t.countP (fun c => c.name == B.name) := by
      refine List.countP_congr ?_
      intro c _
      simp only [Function.comp_apply, stoppedEventUpdate_name]
    rw [hnames]
    have hcount : (t.map (fun c => c.name)).count B.name = 1 :=
      List.count_eq_one_of_mem hnodup
        (List.mem_map_of_mem (fun c => c.name) hB)
    rw [List.count, List.countP_map] at hcount
    exact hcount
  have hrest :
      (reconcileOps m
        ((reconcileStep (applyContainerStoppedEvent t A.name code)).1)).count
        (RuntimeOp.stop B.name) = 0 := by
    refine reconcileOps_count_stop_zero m _ B.name ?_
    intro x hx hxname
    obtain ⟨c0, hc0, rfl⟩ :=
      List.mem_map.mp (hx :
        x ∈ (applyContainerStoppedEvent t A.name code).map
          (fun c => (containerStep c).1))
    rw [containerStep_fst_name] at hxname
    rw [huniq c0 hc0 hxname, hstepB]
  rw [hround1, hrest]

/-- Concrete instantiation of `essentialExit_cascading_stop_exactly_once`:
A (essential) exits with code 137 while B (non-essential) is RUNNING;
over three reconciliation passes exactly one stop is issued for B. -/
theorem essentialExit_cascading_stop_exactly_once_witness :
    (reconcileOps 3
        (applyContainerStoppedEvent [sampleEssentialA, sampleNonEssentialB]
          sampleEssentialA.name 137)).count
      (RuntimeOp.stop sampleNonEssentialB.name) = 1 :=
  (essentialExit_cascading_stop_exactly_once
    [sampleEssentialA, sampleNonEssentialB] sampleEssentialA
    sampleNonEssentialB 137 (by decide) (by decide) (by decide) (by decide)
    (by decide) (by decide) (by decide) (by decide) (by decide)).2
    3 (by decide)

theorem retryLoop_of_stopped (m fuel : Nat) (s : RetryState)
    (h : s.desiredStatus = .STOPPED) : retryLoop m fuel s = (s, 0) := by
  cases fuel with
  | zero => rfl
  | succ f =>
    unfold retryLoop
    rw [if_pos h]

theorem retryLoop_attempts_le (m fuel : Nat) (s : RetryState)
    (h : s.attempts < m) : (retryLoop m fuel s).2 ≤ m - s.attempts := by
  induction fuel generalizing s with
  | zero => exact Nat.zero_le _
  | succ f ih =>
    unfold retryLoop
    by_cases hd : s.desiredStatus = .STOPPED
    · rw [if_pos hd]
      exact Nat.zero_le _
    · rw [if_neg hd]
      simp only
      by_cases hb : m ≤ s.attempts + 1
      · have hstop : (onRuntimeError m s).desiredStatus = .STOPPED := by
          unfold onRuntimeError
          rw [if_pos hb]
        rw [retryLoop_of_stopped m f _ hstop]
        omega
      · have hsa : (onRuntimeError m s).attempts = s.attempts + 1 := by
          unfold onRuntimeError
          rw [if_neg hb]
        have := ih (onRuntimeError m s) (by omega)
        rw [hsa] at this
        omega

theorem retryLoop_stopped_of_exhausted (m fuel : Nat) (s : RetryState)
    (hlt : s.desiredStatus = .STOPPED ∨ s.attempts < m)
    (hfuel : m ≤ s.attempts + fuel) :
    ((retryLoop m fuel s).1).desiredStatus = .STOPPED := by
  induction fuel generalizing s with
  | zero =>
    rcases hlt with hd | hlt
    · exact hd
    · exact absurd hfuel (by omega)
  | succ f ih =>
    by_cases hd : s.desiredStatus = .STOPPED
    · rw [retryLoop_of_stopped m _ s hd]
      exact hd
    · unfold retryLoop
      rw [if_neg hd]
      simp only
      by_cases hb : m ≤ s.attempts + 1
      · have hstop : (onRuntimeError m s).desiredStatus = .STOPPED := by
          unfold onRuntimeError
          rw [if_pos hb]
        rw [retryLoop_of_stopped m f _ hstop]
        exact hstop
      · have hsa : (onRuntimeError m s).attempts = s.attempts + 1 := by
          unfold onRuntimeError
          rw [if_neg hb]
        exact ih _ (Or.inr (by omega)) (by omega)

/-- C7: for a container and a target status, runtime-client errors are
retried at most `maxAttempts` times (for any number of loop iterations,
the attempts made never exceed the bound), and once the bound is
exhausted — any `fuel ≥ maxAttempts` iterations against a persistently
failing operation — the container's `DesiredStatus` has been set to
STOPPED, so no container retries a failing runtime operation
indefinitely. -/
theorem boundedRetries_force_stopped (maxAttempts fuel : Nat)
    (s : RetryState) (hstart : s.attempts = 0) (hm : 0 < maxAttempts) :
    (retryLoop maxAttempts fuel s).2 ≤ maxAttempts ∧
    (maxAttempts ≤ fuel →
      ((retryLoop maxAttempts fuel s).1).desiredStatus = .STOPPED) := by
  constructor
  · have := retryLoop_attempts_le maxAttempts fuel s (by omega)
    omega
  · intro hfuel
    exact retryLoop_stopped_of_exhausted maxAttempts fuel s
      (Or.inr (by omega)) (by omega)

/-- Concrete instantiation of `boundedRetries_force_stopped`: a bound of
2 attempts and 5 loop iterations against a failing operation: at most 2
attempts are made and the container ends up with `DesiredStatus`
STOPPED. -/
theorem boundedRetries_force_stopped_witness :
    (retryLoop 2 5 ⟨0, .RUNNING⟩).2 ≤ 2 ∧
    (2 ≤ 5 → ((retryLoop 2 5 ⟨0, .RUNNING⟩).1).desiredStatus = .STOPPED) :=
  boundedRetries_force_stopped 2 5 ⟨0, .RUNNING⟩ rfl (by decide)

namespace ClientFactory

theorem findDockerVersions_mem {Client : Type}
    (newVersionedClient : String → Except String Client)
    (ping : Client → Except String Unit)
    (knownAPIVersions : List String)
    (minAPIVersion apiVersion : String)
    (p : String × Client)
    (hp : p ∈ findDockerVersions newVersionedClient ping knownAPIVersions
      minAPIVersion apiVersion) :
    getDockerClientForVersion newVersionedClient ping p.1 minAPIVersion
      apiVersion = Except.ok p.2 := by
  unfold findDockerVersions at hp
  suffices h : ∀ acc : List (String × Client),
      p ∈ knownAPIVersions.foldl
        (fun clients version =>
          match getDockerClientForVersion newVersionedClient ping version
              minAPIVersion apiVersion with
          | Except.error _ => clients
          | Except.ok dockerClient => clients ++ [(version, dockerClient)])
        acc →
      p ∈ acc ∨
        getDockerClientForVersion newVersionedClient ping p.1 minAPIVersion
          apiVersion = Except.ok p.2 by
    rcases h [] hp with habs | hgood
    · exact absurd habs (List.not_mem_nil p)
    · exact hgood
  clear hp
  induction knownAPIVersions with
  | nil => exact fun acc h => Or.inl h
  | cons version rest ih =>
    intro acc h
    rw [List.foldl_cons] at h
    cases hv : getDockerClientForVersion newVersionedClient ping version
        minAPIVersion apiVersion with
    | error e =>
      rw [hv] at h
      exact ih acc h
    | ok c =>
      rw [hv] at h
      rcases ih _ h with hacc | hgood
      · rcases List.mem_append.mp hacc with hacc | hnew
        · exact Or.inl hacc
        · rw [List.mem_singleton] at hnew
          subst hnew
          exact Or.inr hv
      · exact Or.inr hgood

/-- C8: when the daemon reports both a `MinAPIVersion` and an
`ApiVersion` (both non-empty, both parseable, as is the candidate),
`getDockerClientForVersion` returns an error — it creates no client —
for every candidate version strictly below `MinAPIVersion` or strictly
above `ApiVersion`; consequently `findDockerVersions` never stores a
client under such a version. -/
theorem outOfRange_version_never_stored {Client : Type}
    (newVersionedClient : String → Except String Client)
    (ping : Client → Except String Unit)
    (knownAPIVersions : List String)
    (version minAPIVersion apiVersion : String)
    (v vmin vmax : List Nat)
    (hv : parseVersionParts version = some v)
    (hmin : parseVersionParts minAPIVersion = some vmin)
    (hmax : parseVersionParts apiVersion = some vmax)
    (hminne : minAPIVersion ≠ "") (hmaxne : apiVersion ≠ "")
    (hout : versionLt v vmin = true ∨ versionLt vmax v = true) :
    (∀ c, getDockerClientForVersion newVersionedClient ping version
        minAPIVersion apiVersion ≠ Except.ok c) ∧
    (∀ c, (version, c) ∉ findDockerVersions newVersionedClient ping
        knownAPIVersions minAPIVersion apiVersion) := by
  have herr : getDockerClientForVersion newVersionedClient ping version
      minAPIVersion apiVersion =
      Except.error
        ("version detection using MinAPIVersion: unsupported version: "
          ++ version) := by
    unfold getDockerClientForVersion
    rw [if_pos ⟨hminne, hmaxne⟩]
    unfold matchesLessThan matchesGreaterThan
    rw [hv, hmin, hmax]
    simp only
    rw [if_pos]
    rcases hout with h | h
    · rw [h, Bool.true_or]
    · rw [h, Bool.or_true]
  constructor
  · intro c hc
    rw [herr] at hc
    exact Except.noConfusion hc
  · intro c hc
    have := findDockerVersions_mem newVersionedClient ping knownAPIVersions
      minAPIVersion apiVersion (version, c) hc
    rw [herr] at this
    exact Except.noConfusion this

/-- Concrete instantiation of `outOfRange_version_never_stored`:
candidate "1.20" against a daemon range ["1.21", "1.30"], with oracles
that would happily create and ping a client: no client is created and
nothing is stored under "1.20". -/
theorem outOfRange_version_never_stored_witness :
    (∀ c : Nat, getDockerClientForVersion
        (fun _ => Except.ok 0) (fun _ => Except.ok ())
        "1.20" "1.21" "1.30" ≠ Except.ok c) ∧
    (∀ c : Nat, ("1.20", c) ∉ findDockerVersions
        (fun _ => Except.ok 0) (fun _ => Except.ok ())
        ["1.20", "1.25"] "1.21" "1.30") :=
  outOfRange_version_never_stored (fun _ => Except.ok 0)
    (fun _ => Except.ok ()) ["1.20", "1.25"] "1.20" "1.21" "1.30"
    [1, 20] [1, 21] [1, 30] (by decide) (by decide) (by decide)
    (by decide) (by decide) (Or.inl (by decide))

/-- C9: `FindClientAPIVersion` is total (it returns a version string,
never an error): when the client is stored in the factory's version
map it returns a version key under which exactly that client is
stored, and when the client is not in the map (a nil or foreign client)
it returns the default version. -/
theorem findClientAPIVersion_total_and_correct {Client : Type}
    [DecidableEq Client] (clients : List (String × Client))
    (defaultVersion : String) (client : Client) :
    ((∃ k, (k, client) ∈ clients) →
        (FindClientAPIVersion clients defaultVersion client, client) ∈
          clients) ∧
    ((∀ k, (k, client) ∉ clients) →
        FindClientAPIVersion clients defaultVersion client =
          defaultVersion) := by
  cases h : clients.find? (fun p => p.2 == client) with
  | some p =>
    have hmem : p ∈ clients := List.mem_of_find?_eq_some h
    have hcl : p.2 = client := by
      have := List.find?_some h
      rwa [beq_iff_eq] at this
    have hres : FindClientAPIVersion clients defaultVersion client = p.1 := by
      unfold FindClientAPIVersion
      rw [h]
    constructor
    · intro _
      rw [hres, ← hcl]
      exact hmem
    · intro hnone
      exact absurd (hcl ▸ hmem : (p.1, client) ∈ clients) (hnone p.1)
  | none =>
    have hres : FindClientAPIVersion clients defaultVersion client =
        defaultVersion := by
      unfold FindClientAPIVersion
      rw [h]
    constructor
    · rintro ⟨k, hk⟩
      have := List.find?_eq_none.mp h _ hk
      simp at this
    · intro _
      exact hres

end ClientFactory

namespace ECS

theorem attachmentValidate_ne_none_iff (v : AttachmentStateChange) :
    AttachmentStateChange.Validate v ≠ none ↔
      v.AttachmentArn = none ∨ v.Status = none := by
  unfold AttachmentStateChange.Validate
      AttachmentStateChange.requiredParamErrors
  by_cases h1 : v.AttachmentArn = none <;>
    by_cases h2 : v.Status = none <;> simp [h1, h2]

theorem attachmentEntryErrors_ne_nil_iff
    (p : Nat × Option AttachmentStateChange) :
    attachmentEntryErrors p ≠ [] ↔
      ∃ v, p.2 = some v ∧ AttachmentStateChange.Validate v ≠ none := by
  obtain ⟨i, a⟩ := p
  cases a with
  | none => simp [attachmentEntryErrors]
  | some v =>
    cases hv : AttachmentStateChange.Validate v with
    | none => simp [attachmentEntryErrors, hv]
    | some errs =>
      have herrs : errs ≠ [] := by
        unfold AttachmentStateChange.Validate at hv
        by_cases h : v.requiredParamErrors.length > 0
        · rw [if_pos h] at hv
          injection hv with hv
          subst hv
          intro hnil
          rw [hnil] at h
          simp at h
        · rw [if_neg h] at hv
          exact Option.noConfusion hv
      simp [attachmentEntryErrors, hv, herrs]

theorem nestedAttachmentErrors_ne_nil_iff (s : SubmitTaskStateChangeInput) :
    s.nestedAttachmentErrors ≠ [] ↔
      ∃ a ∈ s.Attachments, ∃ v, a = some v ∧
        AttachmentStateChange.Validate v ≠ none := by
  unfold SubmitTaskStateChangeInput.nestedAttachmentErrors
  constructor
  · intro h
    rw [Ne, List.flatten_eq_nil_iff] at h
    push_neg at h
    obtain ⟨l, hl, hlne⟩ := h
    obtain ⟨p, hp, rfl⟩ := List.mem_map.mp hl
    obtain ⟨v, hpv, hvv⟩ := (attachmentEntryErrors_ne_nil_iff p).mp hlne
    refine ⟨p.2, ?_, v, hpv, hvv⟩
    have hmem : p.2 ∈ s.Attachments.enum.map Prod.snd :=
      List.mem_map_of_mem Prod.snd hp
    rwa [List.enum_map_snd] at hmem
  · rintro ⟨a, ha, v, rfl, hvv⟩
    rw [← List.enum_map_snd s.Attachments] at ha
    obtain ⟨p, hp, hpa⟩ := List.mem_map.mp ha
    intro hnil
    rw [List.flatten_eq_nil_iff] at hnil
    exact (attachmentEntryErrors_ne_nil_iff p).mpr ⟨v, hpa, hvv⟩
      (hnil _ (List.mem_map_of_mem attachmentEntryErrors hp))

/-- C10: `SubmitTaskStateChangeInput.Validate` returns an error iff
some non-nil element of the `Attachments` list has a nil
`AttachmentArn` or a nil `Status` — no other field is inspected, nil
entries in the list are skipped, and in particular an input with nil
`Task`, nil `Status` and no attachments validates successfully. -/
theorem submitTaskStateChangeInput_validate_iff
    (s : SubmitTaskStateChangeInput) :
    SubmitTaskStateChangeInput.Validate s ≠ none ↔
      ∃ a ∈ s.Attachments, ∃ v, a = some v ∧
        (v.AttachmentArn = none ∨ v.Status = none) := by
  have h1 : SubmitTaskStateChangeInput.Validate s ≠ none ↔
      s.nestedAttachmentErrors ≠ [] := by
    unfold SubmitTaskStateChangeInput.Validate
    by_cases h : s.nestedAttachmentErrors.length > 0
    · have hne : s.nestedAttachmentErrors ≠ [] := by
        intro hnil
        rw [hnil] at h
        simp at h
      simp [h, hne]
    · have heq : s.nestedAttachmentErrors = [] := by
        cases hn : s.nestedAttachmentErrors with
        | nil => rfl
        | cons x xs => rw [hn] at h; simp at h
      simp [h, heq]
  rw [h1, nestedAttachmentErrors_ne_nil_iff]
  constructor
  · rintro ⟨a, ha, v, rfl, hvv⟩
    exact ⟨some v, ha, v, rfl, (attachmentValidate_ne_none_iff v).mp hvv⟩
  · rintro ⟨a, ha, v, rfl, hvv⟩
    exact ⟨some v, ha, v, rfl, (attachmentValidate_ne_none_iff v).mpr hvv⟩

/-- For C2: the report type is fully determined by its nine declared
fields — no two distinct constructible `SubmitTaskStateChangeInput`
values agree on attachments, cluster, containers, the three
timestamps, reason, status and task, so the type holds no additional
client-generated message-token field. -/
theorem submitTaskStateChange_no_message_token_field :
    ¬ ∃ a b : SubmitTaskStateChangeInput,
        (a.Attachments = b.Attachments ∧ a.Cluster = b.Cluster ∧
         a.Containers = b.Containers ∧
         a.ExecutionStoppedAt = b.ExecutionStoppedAt ∧
         a.PullStartedAt = b.PullStartedAt ∧
         a.PullStoppedAt = b.PullStoppedAt ∧ a.Reason = b.Reason ∧
         a.Status = b.Status ∧ a.Task = b.Task) ∧ a ≠ b := by
  rintro ⟨a, b, ⟨h1, h2, h3, h4, h5, h6, h7, h8, h9⟩, hne⟩
  apply hne
  cases a
  cases b
  simp_all

/-- C2 (amended): every constructible batched task state-change report
carries exactly these fields — the attachment list, the cluster, the
changed-container list (each container entry with its name, exit code,
network bindings, reason and status), the pull/execution timestamps,
the reason, the status and the task id — and nothing more; in
particular there is no client-generated message-token field in the
report type. -/
theorem submitTaskStateChange_report_fields :
    (∀ s : SubmitTaskStateChangeInput,
        s = ⟨s.Attachments, s.Cluster, s.Containers, s.ExecutionStoppedAt,
             s.PullStartedAt, s.PullStoppedAt, s.Reason, s.Status,
             s.Task⟩) ∧
    (∀ c : ContainerStateChange,
        c = ⟨c.ContainerName, c.ExitCode, c.NetworkBindings, c.Reason,
             c.Status⟩) :=
  ⟨fun _ => rfl, fun _ => rfl⟩

end ECS

end EcsAgent
